import Mathlib

/-!
Shallow embedding of the REDCap recruitment dashboard core
(`src/services/redcapApi.ts` and
`src/components/Dashboard/RecruitmentDashboard.tsx`).

Conventions of the embedding:
* JavaScript field values that may be `undefined` are modelled as `Option String`.
* Chart-point numeric slots, which in JS may hold `undefined`, `NaN` or a number
  rounded to an integer, are modelled by the inductive `JsVal`.
* JS `Date` objects are modelled at day granularity by `JsDate` (a calendar
  month index together with a 1-based day of month); time of day is abstracted.
* `Math.sqrt` operates on IEEE doubles; the embedding works in `ℚ` and takes the
  square-root function as an explicit parameter `sqrtJs : ℚ → ℚ`, so theorems
  assume only the sign facts that hold for the real `Math.sqrt`.
-/

/-- Value of a numeric chart field: absent (`undefined`), `NaN`, or an integer. -/
inductive JsVal : Type where
  | undef : JsVal
  | nan : JsVal
  | int : Int → JsVal
  deriving DecidableEq, Repr

/-- JS `x || 0` on a numeric chart slot: `undefined`, `NaN` and `0` are falsy,
so all of them collapse to `0`. -/
def jsOrZero : JsVal → Int
  | .int n => n
  | _ => 0

/-- JS `a || b` on strings: `undefined` and the empty string are falsy. -/
def jsOrString (v : Option String) (dflt : String) : String :=
  match v with
  | some s => if s = "" then dflt else s
  | none => dflt

/-- Digits accumulated left to right, as JS `parseInt` does after sign handling. -/
def digitsToNat (cs : List Char) : Nat :=
  cs.foldl (fun n c => 10 * n + (c.toNat - '0'.toNat)) 0

/-- JS `parseInt(s)` (radix 10): skip leading whitespace, optional sign, then the
longest prefix of decimal digits; `none` models `NaN` (no digits found).
Hexadecimal `0x` prefixes are not modelled; no input considered here uses them. -/
def parseIntJS (s : String) : Option Int :=
  let cs := s.toList.dropWhile (fun c => c.isWhitespace)
  let signAndRest : Bool × List Char :=
    match cs with
    | '-' :: rest => (true, rest)
    | '+' :: rest => (false, rest)
    | _ => (false, cs)
  let ds := signAndRest.2.takeWhile (fun c => c.isDigit)
  if ds = [] then none
  else some (if signAndRest.1 then -(digitsToNat ds : Int) else (digitsToNat ds : Int))

/-- The `GENE_MAPPINGS` table from `src/services/redcapApi.ts`. -/
def GENE_MAPPINGS : List (String × String) :=
  [("1", "KIF1A"), ("2", "PHIP"), ("3", "PPP2R5D"), ("4", "MAPK8IP3"),
   ("5", "CTNNB1"), ("6", "PACS2"), ("7", "CACNA1A"), ("8", "TNPO2"),
   ("9", "DHPS"), ("10", "HNRNPUL2"), ("11", "KIF1C"), ("12", "TKT"),
   ("13", "SLC1A4"), ("14", "CACNA1G"), ("15", "CDC42BPB"), ("16", "SLCGA1"),
   ("17", "GPT2"), ("18", "TUBB4A"), ("19", "MEF2C"), ("23", "KCNQ3")]

/-- JS object property lookup `table[key]` on an association list:
the first matching key wins, `none` models `undefined`. -/
def lookupStr (l : List (String × String)) (k : String) : Option String :=
  (l.find? (fun p => p.1 = k)).map (fun p => p.2)

/-- Raw REDCap record as consumed by `processParticipantData`; every field may be
absent (`undefined`), which `Option` captures. -/
structure RawRecord where
  record_id : Option String := none
  current_age_yr : Option String := none
  consent_bch : Option String := none
  location_country : Option String := none
  gene : Option String := none
  consent_bch_date : Option String := none
  ethnicity : Option String := none
  race___1 : Option String := none
  race___2 : Option String := none
  race___3 : Option String := none
  race___4 : Option String := none
  race___5 : Option String := none
  race___6 : Option String := none
  race___99 : Option String := none
  deriving DecidableEq, Repr

/-- Normalized participant record (output shape of `processParticipantData`). -/
structure ParticipantData where
  record_id : Option String
  age : String
  race : String
  ethnicity : String
  consent_location : String
  location_country : String
  gene : String
  consent_date : Option String
  survey_completion_date : String
  deriving DecidableEq, Repr

/-- Placeholder used with `List.getD`; mirrors reading past the end of a JS array. -/
def dummyPD : ParticipantData :=
  { record_id := none, age := "", race := "", ethnicity := "",
    consent_location := "", location_country := "", gene := "",
    consent_date := none, survey_completion_date := "" }

/-- Age-bucketing chain from `processParticipantData`: `none` models `NaN`,
which fails every `<=` comparison and therefore falls through to the final
else branch `65+`. -/
def ageBucket : Option Int → String
  | some a =>
    if a ≤ 6 then "0-6"
    else if a ≤ 17 then "7-17"
    else if a ≤ 65 then "18-65"
    else "65+"
  | none => "65+"

/-- The sequence of independent `if` statements assigning `participantData.race`,
one Boolean per `race___N === "1"` comparison, in source order (a later match
overwrites an earlier one). -/
def raceFromFlags (b1 b2 b3 b4 b5 b6 b99 : Bool) : String :=
  let race := "Unknown"
  let race := if b1 then "American Indian or Alaksa Native" else race
  let race := if b2 then "Asian" else race
  let race := if b3 then "Native Hawaiian or Pacific Islander" else race
  let race := if b4 then "Black or African American" else race
  let race := if b5 then "White or Caucasian" else race
  let race := if b6 then "Others" else race
  let race := if b99 then "Unknown" else race
  race

/-- The race flags paired with their labels, in the priority order
`race___1, race___2, race___3, race___4, race___5, race___6, race___99`. -/
def raceFlagLabels (b1 b2 b3 b4 b5 b6 b99 : Bool) : List (Bool × String) :=
  [(b1, "American Indian or Alaksa Native"), (b2, "Asian"),
   (b3, "Native Hawaiian or Pacific Islander"), (b4, "Black or African American"),
   (b5, "White or Caucasian"), (b6, "Others"), (b99, "Unknown")]

/-- Claim-side reading of the race resolution: the label of the FIRST flag set
in the priority order, `Unknown` if none is set. -/
def firstRaceLabel (b1 b2 b3 b4 b5 b6 b99 : Bool) : String :=
  ((((raceFlagLabels b1 b2 b3 b4 b5 b6 b99).filter (fun p => p.1)).map
    (fun p => p.2)).head?).getD "Unknown"

/-- Source behaviour restated declaratively: the label of the LAST flag set in
the priority order (each later `if` overwrites the earlier assignment),
`Unknown` if none is set. -/
def lastRaceLabel (b1 b2 b3 b4 b5 b6 b99 : Bool) : String :=
  ((((raceFlagLabels b1 b2 b3 b4 b5 b6 b99).filter (fun p => p.1)).map
    (fun p => p.2)).getLast?).getD "Unknown"

/-- The sequence of `if` statements assigning `participantData.ethnicity`. -/
def ethnicityFromCode (v : Option String) : String :=
  let e := "Unknown"
  let e := if v = some "1" then "Hispanic or Latino" else e
  let e := if v = some "0" then "Not Hispanic or Latino" else e
  let e := if v = some "99" then "Unknown" else e
  e

/-- Embedding of `processParticipantData` from `src/services/redcapApi.ts`: maps every raw
record (no skipping) to a normalized `ParticipantData`. -/
def processParticipantData (records : List RawRecord) : List ParticipantData :=
  records.map fun record =>
    let age :=
      match record.current_age_yr with
      | some s => if s = "" then "na" else ageBucket (parseIntJS s)
      | none => ageBucket none
    let race := raceFromFlags
      (decide (record.race___1 = some "1")) (decide (record.race___2 = some "1"))
      (decide (record.race___3 = some "1")) (decide (record.race___4 = some "1"))
      (decide (record.race___5 = some "1")) (decide (record.race___6 = some "1"))
      (decide (record.race___99 = some "1"))
    let geneValue := jsOrString record.gene ""
    let geneName := jsOrString (lookupStr GENE_MAPPINGS geneValue) geneValue
    { record_id := record.record_id
      age := age
      race := race
      ethnicity := ethnicityFromCode record.ethnicity
      consent_location := if record.consent_bch = some "1" then "Boston" else "Others"
      location_country := if record.location_country = some "1" then "United States" else "Others"
      gene := geneName
      consent_date := record.consent_bch_date
      survey_completion_date := "" }

/-! ## Date model

A JS `Date` at day granularity: `monthIdx` is the calendar month as
`12 * year + month0` with `month0` the 0-based JS month, and `day` is the
1-based day of the month. Ordering of valid dates agrees with the ordering of
`enc` below, which is the surrogate for `Date.getTime()`. -/

structure JsDate where
  monthIdx : Int
  day : Int
  deriving DecidableEq, Repr

/-- JS `getFullYear()` of a month index. -/
def yearOf (mi : Int) : Int := mi.fdiv 12

/-- JS `getMonth()` (0-based) of a month index. -/
def month0 (mi : Int) : Int := mi.fmod 12

/-- Gregorian leap-year rule, as implemented by the JS `Date` calendar. -/
def isLeapYear (y : Int) : Bool :=
  y % 4 = 0 && (¬ y % 100 = 0 || y % 400 = 0)

/-- Number of days of 0-based month `m` in year `y`. -/
def daysInMonthYM (y m : Int) : Int :=
  if m = 1 then (if isLeapYear y then 29 else 28)
  else if m = 3 ∨ m = 5 ∨ m = 8 ∨ m = 10 then 30
  else 31

/-- Number of days of the month with index `mi`. -/
def daysInMonthIdx (mi : Int) : Int := daysInMonthYM (yearOf mi) (month0 mi)

/-- Linear surrogate for `Date.getTime()`: orders valid dates (with
`1 ≤ day ≤ 31`) exactly as real timestamps order them. -/
def enc (d : JsDate) : Int := d.monthIdx * 32 + d.day

/-- Build a date from a month index and a possibly out-of-range day, rolling
the overflow into the adjacent month as the JS `Date` constructor and
`setDate`/`setMonth` do. One normalization step suffices for every use in this
development, where the day stays within one month of the valid range. -/
def mkDate (mi day : Int) : JsDate :=
  if day < 1 then ⟨mi - 1, day + daysInMonthIdx (mi - 1)⟩
  else if day > daysInMonthIdx mi then ⟨mi + 1, day - daysInMonthIdx mi⟩
  else ⟨mi, day⟩

/-- date-fns `subMonths(d, k)`: move `k` months back, clamping the day of month
to the length of the target month. -/
def subMonths (d : JsDate) (k : Int) : JsDate :=
  ⟨d.monthIdx - k, min d.day (daysInMonthIdx (d.monthIdx - k))⟩

/-- date-fns `addMonths(d, k)` (same clamping behaviour). -/
def addMonths (d : JsDate) (k : Int) : JsDate := subMonths d (-k)

/-- JS `new Date(getFullYear(), getMonth() + 1, 0)`: the last day of the month of `d`. -/
def monthEnd (d : JsDate) : JsDate := ⟨d.monthIdx, daysInMonthIdx d.monthIdx⟩

/-- date-fns `compareAsc` at day granularity. -/
def compareAsc (a b : JsDate) : Int :=
  if enc a < enc b then -1 else if enc b < enc a then 1 else 0

/-- JS `setDate` (day overflow rolls into the adjacent month). -/
def jsSetDate (d : JsDate) (n : Int) : JsDate := mkDate d.monthIdx n

/-- JS `setMonth` (keeps the day of month; overflow rolls forward). -/
def jsSetMonth (d : JsDate) (m : Int) : JsDate :=
  mkDate (12 * yearOf d.monthIdx + m) d.day

/-- date-fns `isLastDayOfMonth`. -/
def isLastDayOfMonth (d : JsDate) : Bool := d.day = daysInMonthIdx d.monthIdx

/-- date-fns `differenceInCalendarMonths`. -/
def differenceInCalendarMonths (l r : JsDate) : Int := l.monthIdx - r.monthIdx

/-- date-fns v2 `differenceInMonths(l, r)`, ported statement by statement at day
granularity: the mutation of the local copy of `l` by `setDate`/`setMonth` is
expressed through `l1`/`l2`, and the final `isLastDayOfMonth` check reads the
original argument, as the JS source does via `dirtyDateLeft`. -/
def differenceInMonths (l r : JsDate) : Int :=
  let sign := compareAsc l r
  let difference : Nat := (differenceInCalendarMonths l r).natAbs
  if difference < 1 then 0
  else
    let l1 := if month0 l.monthIdx = 1 ∧ l.day > 27 then jsSetDate l 30 else l
    let l2 := jsSetMonth l1 (month0 l1.monthIdx - sign * difference)
    let isLastMonthNotFull :=
      if isLastDayOfMonth l ∧ difference = 1 ∧ compareAsc l r = 1 then false
      else decide (compareAsc l2 r = -sign)
    sign * ((difference : Int) - (if isLastMonthNotFull then 1 else 0))

/-- Days since 1970-01-01 of a (0-based month) civil date; closed form using
floor division, valid for all years. -/
def daysFromCivil (y m0 d : Int) : Int :=
  let y1 := if m0 ≤ 1 then y - 1 else y
  let m1 := if m0 ≤ 1 then m0 + 10 else m0 - 2
  365 * y1 + y1.fdiv 4 - y1.fdiv 100 + y1.fdiv 400 + (153 * m1 + 2).fdiv 5 + d - 1 - 719468

/-- Days since the epoch of a `JsDate`; used where the dashboard does
day-level arithmetic (weeks). -/
def toAbs (d : JsDate) : Int := daysFromCivil (yearOf d.monthIdx) (month0 d.monthIdx) d.day

/-- JS `getDay()` from an epoch-day number (1970-01-01 was a Thursday, code 4). -/
def jsWeekday (n : Int) : Int := (n + 4) % 7

/-! ## Dashboard data model

`RecruitmentDashboard.tsx` consumes the normalized `ParticipantData` records
through dynamic field access (`record[dateField]`, `record[group2Field]`).
`PRecord` models exactly that access surface: the gene label, the parse result
of each timestamp field, and the string value of each group field. -/

/-- Result of reading `record[dateField]` and feeding it to `parseISO`:
`missing` models a falsy or non-string value (rejected by the guard in the
source), `invalid` a string on which `parseISO` yields an Invalid Date (every
comparison with it is false), `valid d` a parsed date. -/
inductive DateVal : Type where
  | missing : DateVal
  | invalid : DateVal
  | valid : JsDate → DateVal
  deriving DecidableEq, Repr

/-- Dashboard-side view of a normalized record. -/
structure PRecord where
  gene : String
  dateOf : String → DateVal
  groupOf : String → String

/-- Gene filter applied by both dashboard processors. -/
def geneFiltered (data : List PRecord) (selectedGene : String) : List PRecord :=
  if selectedGene = "ALL" then data else data.filter (fun r => r.gene = selectedGene)

/-- Predicate for the cumulative count: the record has a parseable date in
`dateField` on or before `endD` (`recordDate <= intervalEnd` in the source;
missing and unparseable dates yield false). -/
def countedBy (dateField : String) (endD : JsDate) (r : PRecord) : Bool :=
  match r.dateOf dateField with
  | .valid d => enc d ≤ enc endD
  | _ => false

/-- Field-mapping configuration entry (`FieldMapping` with its `valueMappings`
object as an association list). -/
structure FieldMappingL where
  redcapField : String
  displayName : String
  valueMappings : List (String × String)
  deriving DecidableEq, Repr

/-- Helper `getMappedValue` from `processTimeSeriesData`: apply the value mapping when
one is configured and non-empty, with `?? originalValue` fallback. -/
def getMappedValue (originalValue : String) (config : Option FieldMappingL) : String :=
  match config with
  | none => originalValue
  | some c =>
    if c.valueMappings = [] then originalValue
    else
      match lookupStr c.valueMappings originalValue with
      | some v => v
      | none => originalValue

/-- Display value of a record for the selected group field
(`group2Field === "ALL" ? "Total" : getMappedValue(...)`). -/
def mappedGroupValue (group2Field : String) (config : Option FieldMappingL)
    (r : PRecord) : String :=
  if group2Field = "ALL" then "Total" else getMappedValue (r.groupOf group2Field) config

/-- First-insertion-order deduplication, as a JS `Set` built from an array. -/
def insertionDedup (l : List String) : List String :=
  l.foldl (fun acc v => if v ∈ acc then acc else acc ++ [v]) []

/-- Helper `getUniqueMappedCategories` from `processTimeSeriesData`. -/
def getUniqueMappedCategories (filteredData : List PRecord) (field : String)
    (config : Option FieldMappingL) : List String :=
  if field = "ALL" then ["Total"]
  else insertionDedup (filteredData.map (fun r => getMappedValue (r.groupOf field) config))

/-! ## Distribution aggregator (`processTimeSeriesData`) -/

/-- One point of the weekly series: the week-start boundary as an epoch-day
number (the `format(interval, "MMM dd")` label is represented by the date
itself), and the per-category counts in category order. -/
structure TimeSeriesPoint where
  weekStart : Int
  counts : List (String × Nat)
  deriving DecidableEq, Repr

/-- Placeholder used with `List.getD` on weekly point lists. -/
def dummyTSP : TimeSeriesPoint := { weekStart := 0, counts := [] }

/-- The two shapes `processTimeSeriesData` returns: pie-chart pairs
(`{name, value}`) when the time field is `"ALL"`, weekly points otherwise. -/
inductive TimeSeriesResult : Type where
  | snapshot : List (String × Nat) → TimeSeriesResult
  | weekly : List TimeSeriesPoint → TimeSeriesResult
  deriving DecidableEq, Repr

/-- Insertion-ordered counting of `groupCounts[value2] = (groupCounts[value2] || 0) + 1`.
JS object enumeration would list integer-like keys first; the categories used
here are display labels, for which enumeration order is insertion order. -/
def bumpCount (acc : List (String × Nat)) (k : String) : List (String × Nat) :=
  if acc.any (fun p => p.1 = k) then
    acc.map (fun p => if p.1 = k then (p.1, p.2 + 1) else p)
  else acc ++ [(k, 1)]

/-- date-fns `startOfWeek` (default `weekStartsOn = 0`, Sunday) on epoch days:
subtract `getDay(date)` days. -/
def startOfWeekAbs (a : Int) : Int := a - jsWeekday a

/-- date-fns `eachWeekOfInterval` on epoch days: from `startOfWeek(start)`,
step 7 days while still at or before `end`. An inverted interval makes the JS
function throw a `RangeError`; the embedding returns `[]` there. -/
def eachWeekOfIntervalAbs (startA endA : Int) : List Int :=
  if startA ≤ endA then
    let w0 := startOfWeekAbs startA
    (List.range ((endA - w0).toNat / 7 + 1)).map (fun (i : Nat) => w0 + 7 * (i : Int))
  else []

/-- Epoch-day number of the parsed `record[dateField]`, when valid. -/
def recordAbsDate (r : PRecord) (dateField : String) : Option Int :=
  match r.dateOf dateField with
  | .valid d => some (toAbs d)
  | _ => none

/-- The weekly points built by the `selectedTimestamp != "ALL"` branch of
`processTimeSeriesData`: one point per week boundary, and for each category the
count of filtered records whose date is strictly after the boundary
(`isAfter(recordDate, interval)`). -/
def weeklyPoints (data : List PRecord) (selectedGene selectedGroup selectedTimestamp : String)
    (group2Config : Option FieldMappingL) (now : JsDate) : List TimeSeriesPoint :=
  let filteredData := geneFiltered data selectedGene
  let startDate := subMonths now 3
  let intervals := eachWeekOfIntervalAbs (toAbs startDate) (toAbs now)
  let group2Categories := getUniqueMappedCategories filteredData selectedGroup group2Config
  intervals.map fun interval =>
    { weekStart := interval
      counts := group2Categories.map fun cat2 =>
        (cat2, filteredData.countP fun r =>
          match recordAbsDate r selectedTimestamp with
          | some a => decide (mappedGroupValue selectedGroup group2Config r = cat2) && decide (interval < a)
          | none => false) }

/-- Embedding of `processTimeSeriesData` from `RecruitmentDashboard.tsx`. The empty
`selectedTimestamp` early return (`if (!selectedTimestamp) return []`) is the
empty weekly list. -/
def processTimeSeriesData (data : List PRecord)
    (selectedGene selectedGroup selectedTimestamp : String)
    (group2Config : Option FieldMappingL) (now : JsDate) : TimeSeriesResult :=
  if selectedTimestamp = "" then .weekly []
  else if selectedTimestamp = "ALL" then
    let filteredData := geneFiltered data selectedGene
    if selectedGroup = "ALL" then .snapshot [("Total", filteredData.length)]
    else .snapshot (filteredData.foldl
      (fun acc r => bumpCount acc (mappedGroupValue selectedGroup group2Config r)) [])
  else .weekly (weeklyPoints data selectedGene selectedGroup selectedTimestamp group2Config now)

/-! ## Cumulative and projection engine (`processCumulativeData`) -/

/-- One point of the cumulative chart (`CumulativeDataPoint` in the source;
the `date` label string is represented by `monthIdx`, and `timestamp` is the
`getTime()` surrogate `enc`). -/
structure CumulativePoint where
  timestamp : Int
  monthIdx : Int
  total : JsVal
  projected : JsVal
  trendProjected : JsVal
  upperBound : JsVal
  lowerBound : JsVal
  category : String
  deriving DecidableEq, Repr

/-- Placeholder used with `List.getD`; mirrors `undefined` slots of a JS array
read out of range (`dataPoints[length - 1]?.total || 0` on an empty array). -/
def dummyPoint : CumulativePoint :=
  { timestamp := 0, monthIdx := 0, total := .undef, projected := .undef,
    trendProjected := .undef, upperBound := .undef, lowerBound := .undef,
    category := "" }

/-- The 12 trailing month anchors `subMonths(now, 11 - i)` for `i = 0..11`,
oldest first. -/
def anchorStarts (now : JsDate) : List JsDate :=
  (List.range 12).map (fun (i : Nat) => subMonths now (11 - (i : Int)))

/-- The `isCurrentOrPast` test from the source: year strictly before, or same
year and month at or before. -/
def isCurrentOrPast (intervalStart now : JsDate) : Bool :=
  decide (yearOf intervalStart.monthIdx < yearOf now.monthIdx) ||
    (decide (yearOf intervalStart.monthIdx = yearOf now.monthIdx) &&
      decide (month0 intervalStart.monthIdx ≤ month0 now.monthIdx))

/-- Cumulative count of one anchor: filtered records whose date parses and is
on or before the last day of the anchor month. -/
def anchorTotal (filteredData : List PRecord) (dateField : String)
    (intervalStart : JsDate) : Nat :=
  filteredData.countP (countedBy dateField (monthEnd intervalStart))

/-- One anchor data point: cumulative count of filtered records dated on or
before the last day of the anchor month, with the ternary field assignments of
the source. -/
def anchorPoint (filteredData : List PRecord) (dateField : String)
    (now intervalStart : JsDate) : CumulativePoint :=
  let total : Int := anchorTotal filteredData dateField intervalStart
  { timestamp := enc intervalStart
    monthIdx := intervalStart.monthIdx
    total := if isCurrentOrPast intervalStart now then .int total else .undef
    projected := if isCurrentOrPast intervalStart now then .undef else .int 0
    trendProjected := if isCurrentOrPast intervalStart now then .undef else .int 0
    upperBound := if isCurrentOrPast intervalStart now then .undef else .int 0
    lowerBound := if isCurrentOrPast intervalStart now then .undef else .int 0
    category := "Total" }

/-- The `dataPoints` array of `processCumulativeData` before the projection
loop is appended. -/
def anchorPoints (data : List PRecord) (selectedGene dateField : String)
    (now : JsDate) : List CumulativePoint :=
  (anchorStarts now).map (anchorPoint (geneFiltered data selectedGene) dateField now)

/-- The `monthlyGrowths` loop: consecutive differences of `total || 0`. -/
def monthlyGrowths (pts : List CumulativePoint) : List Int :=
  (List.range (pts.length - 1)).map (fun i =>
    jsOrZero (pts.getD (i + 1) dummyPoint).total - jsOrZero (pts.getD i dummyPoint).total)

/-- JS `Math.round`: round half toward positive infinity. -/
def jsRound (q : ℚ) : Int := ⌊q + 1 / 2⌋

/-- One pushed projection point of the `projectionMonths.forEach` loop.
`currentProjected` accumulates `+= targetRate` per iteration; in exact rational
arithmetic the accumulated value at `index` equals
`lastActual + targetRate * (index + 1)`, the form used here. A `NaN`
`targetRate` (non-numeric target count) is the `none` case and propagates to a
`NaN` `projected` field. -/
def projPoint (now : JsDate) (lastActual : Int) (trendRate stdDev : ℚ)
    (targetRate : Option ℚ) (sqrtJs : ℚ → ℚ) (index : Nat) : CumulativePoint :=
  let month := addMonths now ((index : Int) + 1)
  let trendProjected : ℚ := (lastActual : ℚ) + trendRate * ((index : ℚ) + 1)
  let confidenceMargin : ℚ := stdDev * sqrtJs ((index : ℚ) + 1) * 2
  { timestamp := enc month
    monthIdx := month.monthIdx
    total := .undef
    projected :=
      match targetRate with
      | some tr => .int (jsRound ((lastActual : ℚ) + tr * ((index : ℚ) + 1)))
      | none => .nan
    trendProjected := .int (jsRound trendProjected)
    upperBound := .int (jsRound (trendProjected + confidenceMargin))
    lowerBound := .int (max lastActual (jsRound (trendProjected - confidenceMargin)))
    category := "Total" }

/-- The `avgGrowth` value of `processCumulativeData`:
`monthlyGrowths.length > 0 ? sum / length : 0`. -/
def avgGrowthOf (data : List PRecord) (selectedGene selectedTimestamp : String)
    (now : JsDate) : ℚ :=
  let growths := monthlyGrowths (anchorPoints data selectedGene selectedTimestamp now)
  if 0 < growths.length then
    ((growths.map (fun (x : Int) => (x : ℚ))).sum) / (growths.length : ℚ)
  else 0

/-- The `stdDev` value of `processCumulativeData`: `Math.sqrt` of the
population variance of the monthly growths. -/
def stdDevOf (data : List PRecord) (selectedGene selectedTimestamp : String)
    (now : JsDate) (sqrtJs : ℚ → ℚ) : ℚ :=
  let growths := monthlyGrowths (anchorPoints data selectedGene selectedTimestamp now)
  let avgGrowth := avgGrowthOf data selectedGene selectedTimestamp now
  if 0 < growths.length then
    sqrtJs (((growths.map (fun (x : Int) => ((x : ℚ) - avgGrowth) ^ 2)).sum) / (growths.length : ℚ))
  else 0

/-- The `lastActual` value of `processCumulativeData`
(`dataPoints[dataPoints.length - 1]?.total || 0`; the anchor list has 12
entries, so index `length - 1` is 11). -/
def lastActualTotal (data : List PRecord) (selectedGene dateField : String)
    (now : JsDate) : Int :=
  jsOrZero ((anchorPoints data selectedGene dateField now).getD 11 dummyPoint).total

/-- Embedding of `processCumulativeData` from `RecruitmentDashboard.tsx`.
`targetDateParsed` is the `parseISO(targetDate)` result: `none` models an
Invalid Date, for which `differenceInMonths` is `NaN`, so the
`monthsToTarget > 0` guard is false and no projection tail is appended.
`parseInt(targetNumber)` likewise yields `none` for `NaN`. The
`if (month > now)` guard of the push is the `filterMap` condition. -/
def processCumulativeData (data : List PRecord)
    (selectedGene selectedTimestamp : String) (now : JsDate)
    (targetDateParsed : Option JsDate) (targetNumber : String)
    (sqrtJs : ℚ → ℚ) : List CumulativePoint :=
  if selectedTimestamp = "" ∨ selectedTimestamp = "ALL" then []
  else
    let dataPoints := anchorPoints data selectedGene selectedTimestamp now
    let trendRate := avgGrowthOf data selectedGene selectedTimestamp now
    let stdDev := stdDevOf data selectedGene selectedTimestamp now sqrtJs
    let targetTotal : Option Int := parseIntJS targetNumber
    let lastActual : Int := lastActualTotal data selectedGene selectedTimestamp now
    match targetDateParsed with
    | none => dataPoints
    | some target =>
      let monthsToTarget : Int := differenceInMonths target now - 1
      if 0 < monthsToTarget then
        let targetRate : Option ℚ :=
          targetTotal.map (fun t => ((t : ℚ) - (lastActual : ℚ)) / (monthsToTarget : ℚ))
        dataPoints ++ (List.range monthsToTarget.toNat).filterMap (fun (index : Nat) =>
          if enc now < enc (addMonths now ((index : Int) + 1)) then
            some (projPoint now lastActual trendRate stdDev targetRate sqrtJs index)
          else none)
      else dataPoints

/-! ## Helper lemmas -/

example :
    processParticipantData
      [{ record_id := some "NHS1", current_age_yr := some "10",
         consent_bch := some "1", location_country := some "1",
         gene := some "1", consent_bch_date := some "2024-03-15" }] =
      [{ record_id := some "NHS1", age := "7-17", race := "Unknown",
         ethnicity := "Unknown", consent_location := "Boston",
         location_country := "United States", gene := "KIF1A",
         consent_date := some "2024-03-15", survey_completion_date := "" }] := by
  decide

example : differenceInMonths ⟨2025 * 12 + 5, 15⟩ ⟨2025 * 12 + 0, 15⟩ = 5 := by decide
example : differenceInMonths ⟨2025 * 12 + 5, 14⟩ ⟨2025 * 12 + 0, 15⟩ = 4 := by decide
example : differenceInMonths ⟨2025 * 12 + 0, 15⟩ ⟨2025 * 12 + 5, 15⟩ = -5 := by decide

example : toAbs ⟨1970 * 12 + 0, 1⟩ = 0 := by decide
example : jsWeekday (toAbs ⟨2026 * 12 + 9, 12⟩) = 1 := by decide
example : toAbs ⟨2024 * 12 + 2, 1⟩ - toAbs ⟨2024 * 12 + 1, 1⟩ = 29 := by decide

example :
    (processCumulativeData [] "ALL" "consent_date" ⟨2025 * 12 + 0, 15⟩
      (some ⟨2025 * 12 + 5, 15⟩) "100" (fun _ => 0)).length = 16 := by decide

example :
    (processCumulativeData [] "ALL" "consent_date" ⟨2025 * 12 + 0, 15⟩
      none "100" (fun _ => 0)).length = 12 := by decide


theorem daysInMonthYM_bounds (y m : Int) :
    28 ≤ daysInMonthYM y m ∧ daysInMonthYM y m ≤ 31 := by
  unfold daysInMonthYM
  split_ifs <;> norm_num

theorem daysInMonthIdx_bounds (mi : Int) :
    28 ≤ daysInMonthIdx mi ∧ daysInMonthIdx mi ≤ 31 :=
  daysInMonthYM_bounds _ _

theorem enc_monthEnd_mono {a b : JsDate} (h : a.monthIdx ≤ b.monthIdx) :
    enc (monthEnd a) ≤ enc (monthEnd b) := by
  rcases h.lt_or_eq with h | h
  · have ha := daysInMonthIdx_bounds a.monthIdx
    have hb := daysInMonthIdx_bounds b.monthIdx
    unfold enc monthEnd
    dsimp only
    omega
  · unfold enc monthEnd
    rw [h]

theorem isCurrentOrPast_eq_true {s now : JsDate} (h : s.monthIdx ≤ now.monthIdx) :
    isCurrentOrPast s now = true := by
  unfold isCurrentOrPast yearOf month0
  have h1 := Int.fdiv_add_fmod s.monthIdx 12
  have h2 := Int.fdiv_add_fmod now.monthIdx 12
  have h3 : 0 ≤ s.monthIdx.fmod 12 := Int.fmod_nonneg' _ (by norm_num)
  have h4 : 0 ≤ now.monthIdx.fmod 12 := Int.fmod_nonneg' _ (by norm_num)
  have h5 : s.monthIdx.fmod 12 < 12 := Int.fmod_lt_of_pos _ (by norm_num)
  have h6 : now.monthIdx.fmod 12 < 12 := Int.fmod_lt_of_pos _ (by norm_num)
  simp only [Bool.or_eq_true, Bool.and_eq_true, decide_eq_true_eq]
  omega

theorem subMonths_monthIdx (d : JsDate) (k : Int) :
    (subMonths d k).monthIdx = d.monthIdx - k := rfl

theorem addMonths_monthIdx (d : JsDate) (k : Int) :
    (addMonths d k).monthIdx = d.monthIdx + k := by
  unfold addMonths
  rw [subMonths_monthIdx]
  ring

theorem countedBy_mono {f : String} {e e' : JsDate} (h : enc e ≤ enc e')
    (r : PRecord) (hr : countedBy f e r = true) : countedBy f e' r = true := by
  unfold countedBy at hr ⊢
  cases hd : r.dateOf f <;> rw [hd] at hr <;> simp_all
  omega

theorem anchorTotal_mono (F : List PRecord) (f : String) {s s' : JsDate}
    (h : s.monthIdx ≤ s'.monthIdx) :
    anchorTotal F f s ≤ anchorTotal F f s' := by
  unfold anchorTotal
  exact List.countP_mono_left fun r _ hr =>
    countedBy_mono (enc_monthEnd_mono h) r hr

theorem anchorPoints_length (data : List PRecord) (g f : String) (now : JsDate) :
    (anchorPoints data g f now).length = 12 := by
  unfold anchorPoints anchorStarts
  rw [List.length_map, List.length_map, List.length_range]

theorem anchorPoints_getD (data : List PRecord) (g f : String) (now : JsDate)
    {i : Nat} (hi : i < 12) :
    (anchorPoints data g f now).getD i dummyPoint =
      anchorPoint (geneFiltered data g) f now (subMonths now (11 - (i : Int))) := by
  unfold anchorPoints anchorStarts
  rw [List.map_map, List.getD_eq_getElem?_getD, List.getElem?_map,
    List.getElem?_range hi]
  rfl

theorem anchorPoint_eq (F : List PRecord) (f : String) (now s : JsDate)
    (h : s.monthIdx ≤ now.monthIdx) :
    anchorPoint F f now s =
      { timestamp := enc s, monthIdx := s.monthIdx,
        total := .int (anchorTotal F f s), projected := .undef,
        trendProjected := .undef, upperBound := .undef, lowerBound := .undef,
        category := "Total" } := by
  unfold anchorPoint
  rw [isCurrentOrPast_eq_true h]
  simp

theorem anchor_monthIdx_le (now : JsDate) (i : Nat) (hi : i < 12) :
    (subMonths now (11 - (i : Int))).monthIdx ≤ now.monthIdx := by
  rw [subMonths_monthIdx]
  omega

theorem monthlyGrowths_anchorPoints (data : List PRecord) (g f : String) (now : JsDate) :
    monthlyGrowths (anchorPoints data g f now) =
      (List.range 11).map (fun (i : Nat) =>
        (anchorTotal (geneFiltered data g) f (subMonths now (11 - ((i + 1 : Nat) : Int))) : Int) -
          (anchorTotal (geneFiltered data g) f (subMonths now (11 - (i : Int))) : Int)) := by
  unfold monthlyGrowths
  rw [anchorPoints_length]
  norm_num
  intro i hi
  rw [← List.getD_eq_getElem?_getD, ← List.getD_eq_getElem?_getD,
    anchorPoints_getD data g f now (by omega), anchorPoints_getD data g f now (by omega),
    anchorPoint_eq _ _ _ _ (anchor_monthIdx_le now _ (by omega)),
    anchorPoint_eq _ _ _ _ (anchor_monthIdx_le now i (by omega))]
  simp [jsOrZero]

theorem monthlyGrowths_nonneg (data : List PRecord) (g f : String) (now : JsDate) :
    ∀ x ∈ monthlyGrowths (anchorPoints data g f now), 0 ≤ x := by
  rw [monthlyGrowths_anchorPoints]
  intro x hx
  rw [List.mem_map] at hx
  obtain ⟨i, hi, rfl⟩ := hx
  have hmono : anchorTotal (geneFiltered data g) f (subMonths now (11 - (i : Int))) ≤
      anchorTotal (geneFiltered data g) f (subMonths now (11 - ((i + 1 : Nat) : Int))) := by
    apply anchorTotal_mono
    rw [subMonths_monthIdx, subMonths_monthIdx]
    push_cast
    omega
  omega

theorem avgGrowthOf_nonneg (data : List PRecord) (g f : String) (now : JsDate) :
    0 ≤ avgGrowthOf data g f now := by
  unfold avgGrowthOf
  dsimp only
  split
  · apply div_nonneg
    · apply List.sum_nonneg
      intro x hx
      rw [List.mem_map] at hx
      obtain ⟨y, hy, rfl⟩ := hx
      exact_mod_cast monthlyGrowths_nonneg data g f now y hy
    · positivity
  · exact le_refl 0

theorem stdDevOf_nonneg (data : List PRecord) (g f : String) (now : JsDate)
    (sqrtJs : ℚ → ℚ) (hsqrt : ∀ q : ℚ, 0 ≤ q → 0 ≤ sqrtJs q) :
    0 ≤ stdDevOf data g f now sqrtJs := by
  unfold stdDevOf
  dsimp only
  split
  · apply hsqrt
    apply div_nonneg
    · apply List.sum_nonneg
      intro x hx
      rw [List.mem_map] at hx
      obtain ⟨y, hy, rfl⟩ := hx
      positivity
    · positivity
  · exact le_refl 0

theorem jsRound_mono {a b : ℚ} (h : a ≤ b) : jsRound a ≤ jsRound b :=
  Int.floor_le_floor (by linarith)

theorem jsRound_intCast (n : Int) : jsRound (n : ℚ) = n := by
  unfold jsRound
  rw [Int.floor_int_add]
  norm_num

theorem projPoint_bounds (now : JsDate) (lastActual : Int) (trendRate stdDev : ℚ)
    (targetRate : Option ℚ) (sqrtJs : ℚ → ℚ) (index : Nat)
    (htrend : 0 ≤ trendRate) (hstd : 0 ≤ stdDev) (hsq : 0 ≤ sqrtJs ((index : ℚ) + 1)) :
    ∃ lo tp up : Int,
      (projPoint now lastActual trendRate stdDev targetRate sqrtJs index).lowerBound = .int lo ∧
      (projPoint now lastActual trendRate stdDev targetRate sqrtJs index).trendProjected = .int tp ∧
      (projPoint now lastActual trendRate stdDev targetRate sqrtJs index).upperBound = .int up ∧
      lo ≤ tp ∧ tp ≤ up ∧ lastActual ≤ lo := by
  unfold projPoint
  dsimp only
  refine ⟨_, _, _, rfl, rfl, rfl, ?_, ?_, ?_⟩
  · have hm : 0 ≤ stdDev * sqrtJs ((index : ℚ) + 1) * 2 := by
      have := mul_nonneg hstd hsq
      linarith
    apply max_le
    · have hq : (lastActual : ℚ) ≤ (lastActual : ℚ) + trendRate * ((index : ℚ) + 1) := by
        have h1 : (0 : ℚ) ≤ (index : ℚ) + 1 := by positivity
        have := mul_nonneg htrend h1
        linarith
      calc lastActual = jsRound (lastActual : ℚ) := (jsRound_intCast _).symm
        _ ≤ jsRound ((lastActual : ℚ) + trendRate * ((index : ℚ) + 1)) := jsRound_mono hq
    · exact jsRound_mono (by linarith)
  · have hm : 0 ≤ stdDev * sqrtJs ((index : ℚ) + 1) * 2 := by
      have := mul_nonneg hstd hsq
      linarith
    exact jsRound_mono (by linarith)
  · exact le_max_left _ _

theorem processCumulative_structure (data : List PRecord) (g ts : String)
    (now : JsDate) (tdp : Option JsDate) (tn : String) (sqrtJs : ℚ → ℚ)
    (hts : ¬(ts = "" ∨ ts = "ALL")) :
    ∃ tail, processCumulativeData data g ts now tdp tn sqrtJs =
        anchorPoints data g ts now ++ tail ∧
      ∀ p ∈ tail, ∃ (mt : Int) (index : Nat),
        p = projPoint now (lastActualTotal data g ts now) (avgGrowthOf data g ts now)
              (stdDevOf data g ts now sqrtJs)
              ((parseIntJS tn).map (fun t =>
                ((t : ℚ) - ((lastActualTotal data g ts now : Int) : ℚ)) / ((mt : Int) : ℚ)))
              sqrtJs index := by
  unfold processCumulativeData
  rw [if_neg hts]
  cases tdp with
  | none => exact ⟨[], (List.append_nil _).symm, by simp⟩
  | some target =>
    dsimp only
    split_ifs with hm
    · refine ⟨_, rfl, ?_⟩
      intro p hp
      rw [List.mem_filterMap] at hp
      obtain ⟨i, _hi, hpi⟩ := hp
      split_ifs at hpi with hguard
      exact ⟨differenceInMonths target now - 1, i, (Option.some_inj.mp hpi).symm⟩
    · exact ⟨[], (List.append_nil _).symm, by simp⟩

theorem List_getD_mem {α : Type} (l : List α) (i : Nat) (d : α) (h : i < l.length) :
    l.getD i d ∈ l := by
  rw [List.getD_eq_getElem?_getD, List.getElem?_eq_getElem h]
  exact List.getElem_mem h

theorem projPoint_fields (now : JsDate) (lastActual : Int) (trendRate stdDev : ℚ)
    (targetRate : Option ℚ) (sqrtJs : ℚ → ℚ) (index : Nat) :
    (projPoint now lastActual trendRate stdDev targetRate sqrtJs index).total = .undef ∧
    (projPoint now lastActual trendRate stdDev targetRate sqrtJs index).projected ≠ .undef ∧
    (projPoint now lastActual trendRate stdDev targetRate sqrtJs index).trendProjected ≠ .undef ∧
    (projPoint now lastActual trendRate stdDev targetRate sqrtJs index).upperBound ≠ .undef ∧
    (projPoint now lastActual trendRate stdDev targetRate sqrtJs index).lowerBound ≠ .undef ∧
    (projPoint now lastActual trendRate stdDev targetRate sqrtJs index).monthIdx =
      now.monthIdx + ((index : Int) + 1) := by
  unfold projPoint
  dsimp only
  refine ⟨rfl, ?_, by simp, by simp, by simp, ?_⟩
  · cases targetRate <;> simp
  · rw [addMonths_monthIdx]

theorem mem_anchorPoints_total {data : List PRecord} {g f : String} {now : JsDate}
    {p : CumulativePoint} (hp : p ∈ anchorPoints data g f now) :
    ∃ n : Nat, p.total = .int n := by
  unfold anchorPoints anchorStarts at hp
  rw [List.map_map, List.mem_map] at hp
  obtain ⟨i, hi, rfl⟩ := hp
  rw [List.mem_range] at hi
  rw [Function.comp_apply, anchorPoint_eq _ _ _ _ (anchor_monthIdx_le now i hi)]
  exact ⟨_, rfl⟩

/-! ## Claims -/

/-- C1: for every record set, gene filter, target date and target count, every
future projection point of `processCumulativeData` (the points whose `total` is
absent) satisfies `lowerBound ≤ trendProjected ≤ upperBound` and
`lowerBound ≥ lastActualTotal`. This holds for every input whatsoever; in
particular the clamping makes it hold even where a negative average monthly
growth would push the raw trend below the last actual — and the average growth
computed by this function is in fact nonnegative for every input, because the
anchor totals are cumulative counts. The hypothesis on `sqrtJs` holds for the
real `Math.sqrt`, which is nonnegative on nonnegative arguments. -/
theorem C1_bound_ordering (data : List PRecord) (g ts : String) (now : JsDate)
    (tdp : Option JsDate) (tn : String) (sqrtJs : ℚ → ℚ)
    (hsqrt : ∀ q : ℚ, 0 ≤ q → 0 ≤ sqrtJs q) :
    ∀ p ∈ processCumulativeData data g ts now tdp tn sqrtJs,
      p.total = JsVal.undef →
      ∃ lo tp up : Int,
        p.lowerBound = .int lo ∧ p.trendProjected = .int tp ∧ p.upperBound = .int up ∧
        lo ≤ tp ∧ tp ≤ up ∧ lastActualTotal data g ts now ≤ lo := by
  intro p hp htot
  by_cases hts : ts = "" ∨ ts = "ALL"
  · unfold processCumulativeData at hp
    rw [if_pos hts] at hp
    cases hp
  · obtain ⟨tail, heq, htail⟩ := processCumulative_structure data g ts now tdp tn sqrtJs hts
    rw [heq, List.mem_append] at hp
    rcases hp with hp | hp
    · obtain ⟨n, hn⟩ := mem_anchorPoints_total hp
      rw [hn] at htot
      cases htot
    · obtain ⟨mt, index, rfl⟩ := htail p hp
      exact projPoint_bounds now _ _ _ _ sqrtJs index
        (avgGrowthOf_nonneg data g ts now)
        (stdDevOf_nonneg data g ts now sqrtJs hsqrt)
        (hsqrt _ (by positivity))

/-- Witness for C1 at a concrete input: empty record set, a target five months
ahead, square root modelled by the zero function (which satisfies the sign
hypothesis). -/
theorem C1_witness :
    ∃ lo tp up : Int,
      ((processCumulativeData [] "ALL" "consent_date" ⟨2025 * 12 + 0, 15⟩
          (some ⟨2025 * 12 + 5, 15⟩) "100" (fun _ => 0)).getD 12 dummyPoint).lowerBound = .int lo ∧
      ((processCumulativeData [] "ALL" "consent_date" ⟨2025 * 12 + 0, 15⟩
          (some ⟨2025 * 12 + 5, 15⟩) "100" (fun _ => 0)).getD 12 dummyPoint).trendProjected = .int tp ∧
      ((processCumulativeData [] "ALL" "consent_date" ⟨2025 * 12 + 0, 15⟩
          (some ⟨2025 * 12 + 5, 15⟩) "100" (fun _ => 0)).getD 12 dummyPoint).upperBound = .int up ∧
      lo ≤ tp ∧ tp ≤ up ∧
      lastActualTotal [] "ALL" "consent_date" ⟨2025 * 12 + 0, 15⟩ ≤ lo :=
  C1_bound_ordering [] "ALL" "consent_date" ⟨2025 * 12 + 0, 15⟩
    (some ⟨2025 * 12 + 5, 15⟩) "100" (fun _ => 0) (fun _ _ => le_refl 0)
    _ (List_getD_mem _ 12 dummyPoint (by decide)) (by decide)

/-- C2: under a usable time field, the series `processCumulativeData` returns
consists of the 12 trailing month anchors (all at or before the current month),
each carrying a numeric `total` with all four projection fields absent,
followed only by appended points for months strictly after the current month,
each carrying `total` absent with all four projection fields present (set to a
number or, for `projected` under a malformed target count, `NaN` — never
absent). No point carries both an actual and a projected value. -/
theorem C2_actual_projected_partition (data : List PRecord) (g ts : String)
    (now : JsDate) (tdp : Option JsDate) (tn : String) (sqrtJs : ℚ → ℚ)
    (hts1 : ts ≠ "") (hts2 : ts ≠ "ALL") :
    12 ≤ (processCumulativeData data g ts now tdp tn sqrtJs).length ∧
    ∀ i : Nat, i < (processCumulativeData data g ts now tdp tn sqrtJs).length →
      (i < 12 →
        (∃ n : Nat,
          ((processCumulativeData data g ts now tdp tn sqrtJs).getD i dummyPoint).total = .int n) ∧
        ((processCumulativeData data g ts now tdp tn sqrtJs).getD i dummyPoint).projected = .undef ∧
        ((processCumulativeData data g ts now tdp tn sqrtJs).getD i dummyPoint).trendProjected = .undef ∧
        ((processCumulativeData data g ts now tdp tn sqrtJs).getD i dummyPoint).upperBound = .undef ∧
        ((processCumulativeData data g ts now tdp tn sqrtJs).getD i dummyPoint).lowerBound = .undef ∧
        ((processCumulativeData data g ts now tdp tn sqrtJs).getD i dummyPoint).monthIdx ≤ now.monthIdx) ∧
      (12 ≤ i →
        ((processCumulativeData data g ts now tdp tn sqrtJs).getD i dummyPoint).total = .undef ∧
        ((processCumulativeData data g ts now tdp tn sqrtJs).getD i dummyPoint).projected ≠ .undef ∧
        ((processCumulativeData data g ts now tdp tn sqrtJs).getD i dummyPoint).trendProjected ≠ .undef ∧
        ((processCumulativeData data g ts now tdp tn sqrtJs).getD i dummyPoint).upperBound ≠ .undef ∧
        ((processCumulativeData data g ts now tdp tn sqrtJs).getD i dummyPoint).lowerBound ≠ .undef ∧
        now.monthIdx < ((processCumulativeData data g ts now tdp tn sqrtJs).getD i dummyPoint).monthIdx) := by
  have hts : ¬(ts = "" ∨ ts = "ALL") := not_or.mpr ⟨hts1, hts2⟩
  obtain ⟨tail, heq, htail⟩ := processCumulative_structure data g ts now tdp tn sqrtJs hts
  have hlen12 := anchorPoints_length data g ts now
  refine ⟨by rw [heq, List.length_append, hlen12]; omega, ?_⟩
  intro i hi
  refine ⟨?_, ?_⟩
  · intro h12
    have hgd : (processCumulativeData data g ts now tdp tn sqrtJs).getD i dummyPoint =
        (anchorPoints data g ts now).getD i dummyPoint := by
      rw [heq, List.getD_eq_getElem?_getD, List.getD_eq_getElem?_getD,
        List.getElem?_append_left (by rw [hlen12]; omega)]
    rw [hgd, anchorPoints_getD data g ts now h12,
      anchorPoint_eq _ _ _ _ (anchor_monthIdx_le now i h12)]
    exact ⟨⟨_, rfl⟩, rfl, rfl, rfl, rfl, anchor_monthIdx_le now i h12⟩
  · intro h12
    have hlen_t : i - 12 < tail.length := by
      rw [heq, List.length_append, hlen12] at hi
      omega
    have hgd : (processCumulativeData data g ts now tdp tn sqrtJs).getD i dummyPoint =
        tail.getD (i - 12) dummyPoint := by
      rw [heq, List.getD_eq_getElem?_getD, List.getD_eq_getElem?_getD,
        List.getElem?_append_right (by rw [hlen12]; omega), hlen12]
    obtain ⟨mt, idx, hpp⟩ := htail _ (List_getD_mem _ _ _ hlen_t)
    rw [hgd, hpp]
    obtain ⟨f1, f2, f3, f4, f5, f6⟩ :=
      projPoint_fields now (lastActualTotal data g ts now) (avgGrowthOf data g ts now)
        (stdDevOf data g ts now sqrtJs) _ sqrtJs idx
    exact ⟨f1, f2, f3, f4, f5, by rw [f6]; omega⟩

/-- Witness for C2 at a concrete input. -/
theorem C2_witness :
    12 ≤ (processCumulativeData [] "ALL" "consent_date" ⟨2025 * 12 + 0, 15⟩
      (some ⟨2025 * 12 + 5, 15⟩) "100" (fun _ => 0)).length :=
  (C2_actual_projected_partition [] "ALL" "consent_date" ⟨2025 * 12 + 0, 15⟩
    (some ⟨2025 * 12 + 5, 15⟩) "100" (fun _ => 0) (by decide) (by decide)).1

/-- C3: for every record set, gene filter and usable time field, the
`actualTotal` values over the 12 trailing month anchors (oldest first) are
non-decreasing; each anchor carries the count of filtered records whose parsed
date is on or before the last day of that anchor month (`anchorTotal`). -/
theorem C3_actual_totals_monotone (data : List PRecord) (g ts : String)
    (now : JsDate) (tdp : Option JsDate) (tn : String) (sqrtJs : ℚ → ℚ)
    (hts1 : ts ≠ "") (hts2 : ts ≠ "ALL") :
    ∀ i j : Nat, i ≤ j → j < 12 →
      ((processCumulativeData data g ts now tdp tn sqrtJs).getD i dummyPoint).total =
        .int (anchorTotal (geneFiltered data g) ts (subMonths now (11 - (i : Int)))) ∧
      ((processCumulativeData data g ts now tdp tn sqrtJs).getD j dummyPoint).total =
        .int (anchorTotal (geneFiltered data g) ts (subMonths now (11 - (j : Int)))) ∧
      anchorTotal (geneFiltered data g) ts (subMonths now (11 - (i : Int))) ≤
        anchorTotal (geneFiltered data g) ts (subMonths now (11 - (j : Int))) := by
  have hts : ¬(ts = "" ∨ ts = "ALL") := not_or.mpr ⟨hts1, hts2⟩
  obtain ⟨tail, heq, htail⟩ := processCumulative_structure data g ts now tdp tn sqrtJs hts
  have hlen12 := anchorPoints_length data g ts now
  intro i j hij hj
  have hgd : ∀ k : Nat, k < 12 →
      (processCumulativeData data g ts now tdp tn sqrtJs).getD k dummyPoint =
        anchorPoint (geneFiltered data g) ts now (subMonths now (11 - (k : Int))) := by
    intro k hk
    rw [heq, List.getD_eq_getElem?_getD, List.getElem?_append_left (by rw [hlen12]; omega),
      ← List.getD_eq_getElem?_getD, anchorPoints_getD data g ts now hk]
  rw [hgd i (by omega), hgd j hj,
    anchorPoint_eq _ _ _ _ (anchor_monthIdx_le now i (by omega)),
    anchorPoint_eq _ _ _ _ (anchor_monthIdx_le now j hj)]
  refine ⟨rfl, rfl, anchorTotal_mono _ _ ?_⟩
  rw [subMonths_monthIdx, subMonths_monthIdx]
  omega

/-- Witness for C3 at a concrete input and concrete anchor indices. -/
theorem C3_witness :
    ((processCumulativeData [] "ALL" "consent_date" ⟨2025 * 12 + 0, 15⟩
        (some ⟨2025 * 12 + 5, 15⟩) "100" (fun _ => 0)).getD 0 dummyPoint).total =
      .int (anchorTotal (geneFiltered [] "ALL") "consent_date"
        (subMonths ⟨2025 * 12 + 0, 15⟩ (11 - (0 : Int)))) ∧
    ((processCumulativeData [] "ALL" "consent_date" ⟨2025 * 12 + 0, 15⟩
        (some ⟨2025 * 12 + 5, 15⟩) "100" (fun _ => 0)).getD 5 dummyPoint).total =
      .int (anchorTotal (geneFiltered [] "ALL") "consent_date"
        (subMonths ⟨2025 * 12 + 0, 15⟩ (11 - (5 : Int)))) ∧
    anchorTotal (geneFiltered [] "ALL") "consent_date"
        (subMonths ⟨2025 * 12 + 0, 15⟩ (11 - (0 : Int))) ≤
      anchorTotal (geneFiltered [] "ALL") "consent_date"
        (subMonths ⟨2025 * 12 + 0, 15⟩ (11 - (5 : Int))) :=
  C3_actual_totals_monotone [] "ALL" "consent_date" ⟨2025 * 12 + 0, 15⟩
    (some ⟨2025 * 12 + 5, 15⟩) "100" (fun _ => 0) (by decide) (by decide)
    0 5 (by decide) (by decide)

theorem projPoint_projected_nan (now : JsDate) (lastActual : Int)
    (trendRate stdDev : ℚ) (sqrtJs : ℚ → ℚ) (index : Nat) :
    (projPoint now lastActual trendRate stdDev none sqrtJs index).projected = .nan := rfl

/-- C7 (amended): with an unparseable target date the engine returns exactly
the 12 actual anchors with an empty projection tail and does not throw; but no
validation warning is surfaced to the caller (the return value is the plain
anchor list, indistinguishable from a normal no-projection run). And with a
non-numeric target count under a parseable target date, projection points ARE
appended: every appended point carries `projected = NaN` (the trend fields
stay numeric). -/
theorem C7_invalid_target (data : List PRecord) (g ts : String) (now : JsDate)
    (tdp : Option JsDate) (tn : String) (sqrtJs : ℚ → ℚ)
    (hts1 : ts ≠ "") (hts2 : ts ≠ "ALL") :
    processCumulativeData data g ts now none tn sqrtJs = anchorPoints data g ts now ∧
    (parseIntJS tn = none →
      ∀ p ∈ processCumulativeData data g ts now tdp tn sqrtJs,
        p.total = .undef → p.projected = .nan) := by
  have hts : ¬(ts = "" ∨ ts = "ALL") := not_or.mpr ⟨hts1, hts2⟩
  constructor
  · unfold processCumulativeData
    rw [if_neg hts]
  · intro hpn p hp htot
    obtain ⟨tail, heq, htail⟩ := processCumulative_structure data g ts now tdp tn sqrtJs hts
    rw [heq, List.mem_append] at hp
    rcases hp with hp | hp
    · obtain ⟨n, hn⟩ := mem_anchorPoints_total hp
      rw [hn] at htot
      cases htot
    · obtain ⟨mt, index, rfl⟩ := htail p hp
      rw [hpn]
      exact projPoint_projected_nan now _ _ _ sqrtJs index

/-- Witness for C7 at a concrete input: unparseable target date. -/
theorem C7_witness :
    processCumulativeData [] "ALL" "consent_date" ⟨2025 * 12 + 0, 15⟩
        none "100" (fun _ => 0) =
      anchorPoints [] "ALL" "consent_date" ⟨2025 * 12 + 0, 15⟩ :=
  (C7_invalid_target [] "ALL" "consent_date" ⟨2025 * 12 + 0, 15⟩
    none "100" (fun _ => 0) (by decide) (by decide)).1

/-- C7 counterexample: a non-numeric target count (`"abc"`) with a parseable
target date five months ahead does NOT make the engine return only the
actual-anchor prefix: four projection points are appended (16 points instead
of 12), and the appended points carry `projected = NaN`. No validation warning
exists anywhere in the return value. -/
theorem C7_counterexample :
    (processCumulativeData [] "ALL" "consent_date" ⟨2025 * 12 + 0, 15⟩
      (some ⟨2025 * 12 + 5, 15⟩) "abc" (fun _ => 0)).length = 16 ∧
    ((processCumulativeData [] "ALL" "consent_date" ⟨2025 * 12 + 0, 15⟩
      (some ⟨2025 * 12 + 5, 15⟩) "abc" (fun _ => 0)).getD 12 dummyPoint).projected = JsVal.nan ∧
    parseIntJS "abc" = none ∧ (16 : Nat) ≠ 12 := by
  refine ⟨by decide, by decide, by decide, by decide⟩

theorem startOfWeek_weekday (a : Int) (i : Nat) :
    jsWeekday (startOfWeekAbs a + 7 * (i : Int)) = 0 := by
  simp only [jsWeekday, startOfWeekAbs]
  have h2 : a - (a + 4) % 7 + 7 * (i : Int) + 4 = 7 * ((a + 4) / 7 + (i : Int)) := by
    omega
  rw [h2, Int.mul_emod_right]

/-- C6 (amended): when a usable time field is selected,
`processTimeSeriesData` returns one point per week-start boundary of the
trailing 3-month window with weeks starting on SUNDAY (`eachWeekOfInterval`
with the default `weekStartsOn = 0`, not ISO Monday weeks), and for each week
boundary and each distinct mapped category it counts exactly the gene-filtered
records whose parsed date is strictly after that boundary. -/
theorem C6_weekly_sunday (data : List PRecord) (g grp ts : String)
    (cfg : Option FieldMappingL) (now : JsDate) (hts1 : ts ≠ "") (hts2 : ts ≠ "ALL") :
    processTimeSeriesData data g grp ts cfg now =
      .weekly (weeklyPoints data g grp ts cfg now) ∧
    ∀ p ∈ weeklyPoints data g grp ts cfg now,
      jsWeekday p.weekStart = 0 ∧
      startOfWeekAbs (toAbs (subMonths now 3)) ≤ p.weekStart ∧
      p.weekStart ≤ toAbs now ∧
      ∀ c n, (c, n) ∈ p.counts →
        c ∈ getUniqueMappedCategories (geneFiltered data g) grp cfg ∧
        n = ((geneFiltered data g).filter (fun r =>
              match recordAbsDate r ts with
              | some a => decide (mappedGroupValue grp cfg r = c) && decide (p.weekStart < a)
              | none => false)).length := by
  constructor
  · unfold processTimeSeriesData
    rw [if_neg hts1, if_neg hts2]
  · intro p hp
    unfold weeklyPoints at hp
    dsimp only at hp
    rw [List.mem_map] at hp
    obtain ⟨w, hw, rfl⟩ := hp
    dsimp only
    unfold eachWeekOfIntervalAbs at hw
    split_ifs at hw with hle
    · rw [List.mem_map] at hw
      obtain ⟨i, hi, rfl⟩ := hw
      rw [List.mem_range] at hi
      have hmod1 : 0 ≤ (toAbs (subMonths now 3) + 4) % 7 :=
        Int.emod_nonneg _ (by norm_num)
      have hmod2 : (toAbs (subMonths now 3) + 4) % 7 < 7 :=
        Int.emod_lt_of_pos _ (by norm_num)
      refine ⟨?_, ?_, ?_, ?_⟩
      · exact startOfWeek_weekday _ i
      · simp only [jsWeekday, startOfWeekAbs]
        omega
      · simp only [jsWeekday, startOfWeekAbs] at hi ⊢
        omega
      · intro c n hcn
        rw [List.mem_map] at hcn
        obtain ⟨c', hc', heq2⟩ := hcn
        have hc : c' = c := congrArg Prod.fst heq2
        have hn : n = (geneFiltered data g).countP (fun r =>
            match recordAbsDate r ts with
            | some a => decide (mappedGroupValue grp cfg r = c') &&
                decide (startOfWeekAbs (toAbs (subMonths now 3)) + 7 * (i : Int) < a)
            | none => false) := (congrArg Prod.snd heq2).symm
        subst hc
        constructor
        · exact hc'
        · rw [hn, List.countP_eq_length_filter]
    · cases hw

/-- Witness for C6 at a concrete input: the first weekly boundary is a Sunday. -/
theorem C6_witness :
    jsWeekday ((weeklyPoints [] "ALL" "ALL" "consent_date" none
      ⟨2026 * 12 + 9, 12⟩).getD 0 dummyTSP).weekStart = 0 :=
  ((C6_weekly_sunday [] "ALL" "ALL" "consent_date" none ⟨2026 * 12 + 9, 12⟩
    (by decide) (by decide)).2 _ (by decide)).1

/-- C6 counterexample: at a concrete reference date (2026-10-12), the weekly
series has 14 boundaries, not one of them is a Monday (`getDay = 1`), and the
first boundary falls on a Sunday (`getDay = 0`) — refuting the
Monday-ISO-weeks reading. -/
theorem C6_counterexample :
    processTimeSeriesData [] "ALL" "ALL" "consent_date" none ⟨2026 * 12 + 9, 12⟩ =
      .weekly (weeklyPoints [] "ALL" "ALL" "consent_date" none ⟨2026 * 12 + 9, 12⟩) ∧
    (weeklyPoints [] "ALL" "ALL" "consent_date" none ⟨2026 * 12 + 9, 12⟩).length = 14 ∧
    ((weeklyPoints [] "ALL" "ALL" "consent_date" none ⟨2026 * 12 + 9, 12⟩).all
      (fun p => jsWeekday p.weekStart == 1)) = false ∧
    jsWeekday ((weeklyPoints [] "ALL" "ALL" "consent_date" none
      ⟨2026 * 12 + 9, 12⟩).getD 0 dummyTSP).weekStart = 0 := by
  decide

theorem raceFromFlags_eq_last (b1 b2 b3 b4 b5 b6 b99 : Bool) :
    raceFromFlags b1 b2 b3 b4 b5 b6 b99 = lastRaceLabel b1 b2 b3 b4 b5 b6 b99 := by
  revert b1 b2 b3 b4 b5 b6 b99
  decide

/-- C4 (amended): the normalized race label is the label of the LAST race flag
equal to `"1"` in the order `race___1 .. race___6, race___99` (the source
assigns through a sequence of independent `if` statements, so a later match
overwrites an earlier one); if no flag is set the label is `"Unknown"`. -/
theorem C4_race_last_flag (records : List RawRecord) :
    (processParticipantData records).map (fun p => p.race) =
      records.map (fun r => lastRaceLabel
        (decide (r.race___1 = some "1")) (decide (r.race___2 = some "1"))
        (decide (r.race___3 = some "1")) (decide (r.race___4 = some "1"))
        (decide (r.race___5 = some "1")) (decide (r.race___6 = some "1"))
        (decide (r.race___99 = some "1"))) := by
  unfold processParticipantData
  rw [List.map_map]
  apply List.map_congr_left
  intro r _
  exact raceFromFlags_eq_last _ _ _ _ _ _ _

/-- C4 counterexample: with both `race___1` and `race___2` set, the code
produces `"Asian"` (the later flag), not the first-flag label
`"American Indian or Alaksa Native"` the claim predicts. -/
theorem C4_race_counterexample :
    ((processParticipantData
      [{ race___1 := some "1", race___2 := some "1" }]).getD 0 dummyPD).race = "Asian" ∧
    firstRaceLabel true true false false false false false =
      "American Indian or Alaksa Native" ∧
    ((processParticipantData
      [{ race___1 := some "1", race___2 := some "1" }]).getD 0 dummyPD).race ≠
      firstRaceLabel true true false false false false false := by
  decide

theorem ppd_singleton_age (r : RawRecord) :
    ((processParticipantData [r]).getD 0 dummyPD).age =
      (match r.current_age_yr with
       | some s => if s = "" then "na" else ageBucket (parseIntJS s)
       | none => ageBucket none) := rfl

theorem ppd_singleton_gene (r : RawRecord) :
    ((processParticipantData [r]).getD 0 dummyPD).gene =
      jsOrString (lookupStr GENE_MAPPINGS (jsOrString r.gene ""))
        (jsOrString r.gene "") := rfl

/-- C5 (amended): an empty-string age yields the explicit `"na"` label; but a
present non-empty age value that fails to parse as an integer — and likewise a
missing age field — parses to `NaN`, which fails every bucket comparison and
falls through to the `"65+"` bucket, not to `"na"`. -/
theorem C5_age_fallback (r : RawRecord) :
    (r.current_age_yr = some "" → ((processParticipantData [r]).getD 0 dummyPD).age = "na") ∧
    (∀ s, r.current_age_yr = some s → s ≠ "" → parseIntJS s = none →
      ((processParticipantData [r]).getD 0 dummyPD).age = "65+") ∧
    (r.current_age_yr = none → ((processParticipantData [r]).getD 0 dummyPD).age = "65+") := by
  rw [ppd_singleton_age]
  refine ⟨?_, ?_, ?_⟩
  · intro h
    rw [h]
    rfl
  · intro s hs hne hp
    rw [hs]
    simp only [if_neg hne, hp]
    rfl
  · intro h
    rw [h]
    rfl

/-- Witness for C5 at a concrete input: a non-numeric age string. -/
theorem C5_witness :
    ((processParticipantData [{ current_age_yr := some "abc" }]).getD 0 dummyPD).age = "65+" :=
  (C5_age_fallback { current_age_yr := some "abc" }).2.1 "abc" rfl (by decide) (by decide)

/-- C5 counterexample: the age value `"abc"` fails to parse, yet normalization
assigns the numeric bucket `"65+"` rather than the `"na"` label the claim
requires. -/
theorem C5_age_counterexample :
    parseIntJS "abc" = none ∧
    ((processParticipantData [{ current_age_yr := some "abc" }]).getD 0 dummyPD).age = "65+" ∧
    ((processParticipantData [{ current_age_yr := some "abc" }]).getD 0 dummyPD).age ≠ "na" := by
  decide

/-- C8 (amended): normalization skips nothing: every raw record — including
those missing `record_id` — maps to exactly one output record, so the output
length always equals the full input length, with `record_id` passed through
unchanged (`undefined` included); no count of skipped records is returned or
logged anywhere. -/
theorem C8_no_skip (records : List RawRecord) :
    (processParticipantData records).length = records.length ∧
    ∀ i : Nat, ((processParticipantData records).getD i dummyPD).record_id =
      (records.getD i ({} : RawRecord)).record_id := by
  constructor
  · unfold processParticipantData
    rw [List.length_map]
  · intro i
    unfold processParticipantData
    rw [List.getD_eq_getElem?_getD, List.getD_eq_getElem?_getD, List.getElem?_map]
    cases hx : records[i]? with
    | none => rfl
    | some r => rfl

/-- C8 counterexample: a batch whose single record lacks `record_id` still
yields one output record (it is not skipped), so the output length is 1 while
the number of well-formed records is 0. -/
theorem C8_counterexample :
    (processParticipantData [({} : RawRecord)]).length = 1 ∧
    ((processParticipantData [({} : RawRecord)]).getD 0 dummyPD).record_id = none ∧
    (1 : Nat) ≠ 0 := by
  decide

/-- C9: a raw gene code absent from `GENE_MAPPINGS` passes through unchanged
as the normalized gene label; a code present in the table resolves to the
mapped gene symbol. -/
theorem C9_gene_mapping (r : RawRecord) (gcode : String) (hg : r.gene = some gcode) :
    (lookupStr GENE_MAPPINGS gcode = none →
      ((processParticipantData [r]).getD 0 dummyPD).gene = gcode) ∧
    ∀ v, lookupStr GENE_MAPPINGS gcode = some v →
      ((processParticipantData [r]).getD 0 dummyPD).gene = v := by
  rw [ppd_singleton_gene, hg]
  by_cases hc : gcode = ""
  · subst hc
    constructor
    · intro _
      decide
    · intro v hv
      have hnone : lookupStr GENE_MAPPINGS "" = none := by decide
      rw [hnone] at hv
      cases hv
  · have hgv : jsOrString (some gcode) "" = gcode := by simp [jsOrString, hc]
    rw [hgv]
    constructor
    · intro hnone
      rw [hnone]
      simp [jsOrString, hc]
    · intro v hv
      have hvne : v ≠ "" := by
        unfold lookupStr at hv
        rw [Option.map_eq_some'] at hv
        obtain ⟨p, hfind, hp2⟩ := hv
        have hpmem := List.mem_of_find?_eq_some hfind
        have hall : ∀ p ∈ GENE_MAPPINGS, p.2 ≠ "" := by decide
        rw [← hp2]
        exact hall _ hpmem
      rw [hv]
      simp [jsOrString, hvne]

/-- Witness for C9 at concrete inputs: the unmapped code `"99"` passes through,
the mapped code `"1"` resolves to `"KIF1A"`. -/
theorem C9_witness :
    ((processParticipantData [{ gene := some "99" }]).getD 0 dummyPD).gene = "99" ∧
    ((processParticipantData [{ gene := some "1" }]).getD 0 dummyPD).gene = "KIF1A" :=
  ⟨(C9_gene_mapping { gene := some "99" } "99" rfl).1 (by decide),
   (C9_gene_mapping { gene := some "1" } "1" rfl).2 "KIF1A" (by decide)⟩

/-- C10: a missing (`undefined`/`null`) or empty gene field normalizes to the
empty string — not `"Unknown"` and not an error — so such records form a
distinct empty-string gene category. -/
theorem C10_gene_empty (r : RawRecord) (h : r.gene = none ∨ r.gene = some "") :
    ((processParticipantData [r]).getD 0 dummyPD).gene = "" := by
  rw [ppd_singleton_gene]
  rcases h with h | h <;> rw [h] <;> decide

/-- Witness for C10 at concrete inputs: a missing and an empty gene field. -/
theorem C10_witness :
    ((processParticipantData [({} : RawRecord)]).getD 0 dummyPD).gene = "" ∧
    ((processParticipantData [{ gene := some "" }]).getD 0 dummyPD).gene = "" :=
  ⟨C10_gene_empty ({} : RawRecord) (Or.inl rfl),
   C10_gene_empty { gene := some "" } (Or.inr rfl)⟩
